import Mathlib

/-!
Verification of the mis-report-file-reports repository: a shallow embedding of
the header-row detection, column reconciliation, footer handling, filtering,
sorting and karat-extraction logic of the five spreadsheet-reformatting tools
(src/deplay-order-report.py, src/factory-out.py, src/loss.py,
src/lot-rejection.py, src/scrap-dc-report.py), together with theorems settling
the spec's claims about them.

Cells read from a spreadsheet are modelled as `String` (deplay-order-report
reads with dtype=str, keep_default_na=False, so every cell is a string there)
or as `Option String` (factory-out and loss.py read typed grids where a cell
can be NaN/None; only the string operations applied to those cells matter to
the claims, so a present cell is modelled by its `str()` rendering).
-/

/-! ## String helpers (Python primitives) -/

/-- Prefix test on character lists: `chPre p l` is true when `p` is an initial
segment of `l`. -/
def chPre : List Char → List Char → Bool
  | [], _ => true
  | _ :: _, [] => false
  | a :: as, b :: bs => a == b && chPre as bs

/-- Substring test on character lists: `chSub p l` is true when `p` occurs
contiguously inside `l`.  Models Python's `p in l` on strings. -/
def chSub (p : List Char) : List Char → Bool
  | [] => chPre p []
  | b :: bs => chPre p (b :: bs) || chSub p bs

/-- Python `pat in s` (substring containment). -/
def pyIn (pat s : String) : Bool := chSub pat.data s.data

/-- Python `str.lower()` (ASCII case folding, which is all the keyword sets
use). -/
def pyLower (s : String) : String := ⟨s.data.map Char.toLower⟩

/-- Drop leading and trailing whitespace from a character list. -/
def trimCh (l : List Char) : List Char :=
  ((l.dropWhile Char.isWhitespace).reverse.dropWhile Char.isWhitespace).reverse

/-- Python `str.strip()`. -/
def pyStrip (s : String) : String := ⟨trimCh s.data⟩

/-- `str(x).strip().lower()` — the normalisation applied to every cell before
keyword matching, in all tools. -/
def normCell (s : String) : String := pyLower (pyStrip s)

/-- Python `s.replace(" ", "")` — used by loss.py's column matching. -/
def despace (s : String) : String := ⟨s.data.filter (fun c => !(c == ' '))⟩

/-- Python `re.sub(r'[^a-z]', '', s.lower())` — keep only the letters a..z of
the lowercased string; used by factory-out/lot-rejection column matching. -/
def alphaOnly (s : String) : String :=
  ⟨(pyLower s).data.filter (fun c => 'a' ≤ c && c ≤ 'z')⟩

/-- Membership of a string in a list of strings (Python `k in xs`). -/
def elemStr (k : String) : List String → Bool
  | [] => false
  | c :: cs => c == k || elemStr k cs

/-- Number of occurrences of a string in a list of strings. -/
def cnt (k : String) : List String → Nat
  | [] => 0
  | c :: cs => (if c == k then 1 else 0) + cnt k cs

/-- First index (from `n`) of an element satisfying `p`; `none` when no
element does.  This is the shape of every `for i, row in ...: if ...: found
= i; break` loop in the tools. -/
def findFirstIdxAux (p : α → Bool) : Nat → List α → Option Nat
  | _, [] => none
  | n, x :: xs => if p x then some n else findFirstIdxAux p (n + 1) xs

/-- First index of an element of `l` satisfying `p`. -/
def findFirstIdx (p : α → Bool) (l : List α) : Option Nat := findFirstIdxAux p 0 l

/-! ## Python float parsing

`astype(float)` / `float(s)` on a decimal string.  Modelled for the grammar
`[ws] [+|-] (digits | digits . digits? | . digits) [(e|E) [+|-] digits] [ws]`;
special spellings (`inf`, `nan`, underscores, hex) do not occur in the
claims' inputs and are not modelled — any string outside the grammar parses
to `none`, which models the `ValueError` that `astype(float)` raises. -/

/-- Numeric value of a digit list (most significant first). -/
def digitsToNat : List Char → Nat
  | [] => 0
  | c :: cs => (c.toNat - '0'.toNat) * 10 ^ cs.length + digitsToNat cs

/-- Exponent suffix: empty, or `e`/`E` followed by an optionally signed
nonempty digit string. -/
def parseExp : List Char → Option Int
  | [] => some 0
  | c :: t =>
    if c == 'e' || c == 'E' then
      match t with
      | '+' :: d => if d ≠ [] && d.all Char.isDigit then some (digitsToNat d) else none
      | '-' :: d => if d ≠ [] && d.all Char.isDigit then some (-(digitsToNat d : Int)) else none
      | d => if d ≠ [] && d.all Char.isDigit then some (digitsToNat d) else none
    else none

/-- Assemble the parsed value `sign * m / 10^fplen * 10^e` as a rational
(`m` is the digit string with the decimal point removed). -/
def assembleFloat (sign : Int) (m fplen : Nat) (oe : Option Int) : Option ℚ :=
  oe.map fun e =>
    if 0 ≤ e then mkRat (sign * (m : Int) * ((10 ^ e.toNat : Nat) : Int)) (10 ^ fplen)
    else mkRat (sign * (m : Int)) (10 ^ fplen * 10 ^ (-e).toNat)

/-- Python `float(s)` restricted to plain decimal notation (see above). -/
def pyFloat (s : String) : Option ℚ :=
  let l := trimCh s.data
  let sgn : Int × List Char :=
    match l with
    | '+' :: t => (1, t)
    | '-' :: t => (-1, t)
    | t => (1, t)
  let ip := sgn.2.takeWhile Char.isDigit
  let rest := sgn.2.dropWhile Char.isDigit
  match rest with
  | '.' :: r2 =>
    let fp := r2.takeWhile Char.isDigit
    let r3 := r2.dropWhile Char.isDigit
    if ip = [] && fp = [] then none
    else
      assembleFloat sgn.1 (digitsToNat ip * 10 ^ fp.length + digitsToNat fp)
        fp.length (parseExp r3)
  | r2 =>
    if ip = [] then none
    else assembleFloat sgn.1 (digitsToNat ip) 0 (parseExp r2)

/-! ## deplay-order-report.py -/

/-- The `column_keywords` mapping (deplay-order-report.py lines 21-34):
canonical column name, with the lowercase keyword fragments that recognise
it. -/
def columnKeywords : List (String × List String) :=
  [("Order No", ["order no", "orderno", "order #"]),
   ("Variant Name", ["variant", "variant name"]),
   ("Group No", ["group no", "group"]),
   ("Batch No", ["batch no", "batch"]),
   ("Actual Metal Wt", ["metal wt", "actual metal"]),
   ("Dept Name", ["dept", "department"]),
   ("Jobworker", ["jobworker", "worker"]),
   ("Req Purity", ["req purity", "purity"]),
   ("Shipment Date", ["shipment date", "ship date"]),
   ("Order Date", ["order date", "date"]),
   ("Shipment Days", ["shipment days", "ship days"]),
   ("Order Days", ["order days", "days"])]

/-- The canonical (target-schema) column names, in fixed order. -/
def columnKeys : List String := columnKeywords.map (fun kc => kc.1)

/-- Detection threshold `len(column_keywords) // 2` (line 44). -/
def delayThreshold : Nat := columnKeywords.length / 2

/-- Number of canonical columns whose keyword set matches one cell `x`
(`any(kw in str(x).strip().lower() for kw in keywords)` summed over the
keyword map). -/
def delayCellHits (x : String) : Nat :=
  (columnKeywords.map fun kc =>
    if kc.2.any (fun kw => pyIn kw (normCell x)) then 1 else 0).sum

/-- The `matches` count of the detection loop (lines 40-43): the sum runs over
the cartesian product `for x in row for key, keywords in column_keywords`,
so it counts matching (cell, canonical-column) PAIRS, not distinct canonical
columns. -/
def delayRowPairCount (row : List String) : Nat := (row.map delayCellHits).sum

/-- Does a row trigger the deplay detector (`matches >= len(column_keywords)
// 2`, line 44)? -/
def delayQualB (row : List String) : Bool :=
  decide (delayThreshold ≤ delayRowPairCount row)

/-- The detection loop (lines 37-46): index of the first row whose pair count
meets the threshold. -/
def delayHeaderOpt (g : List (List String)) : Option Nat := findFirstIdx delayQualB g

/-- Header index with the fallback of lines 47-49: if no row qualified, row 0
is used (with a visible `st.warning`). -/
def delayHeaderIndex (g : List (List String)) : Nat := (delayHeaderOpt g).getD 0

/-- Column renaming of one header label (lines 54-61): the first canonical
column one of whose keywords is a substring of the lowercased, stripped label;
unmatched labels keep their own text. -/
def delayMapLabel (col : String) : String :=
  match columnKeywords.find? (fun kc => kc.2.any (fun kw => pyIn kw (normCell col))) with
  | some kc => kc.1
  | none => col

/-- `new_columns` (lines 53-61): every header cell mapped through
`delayMapLabel`. -/
def delayNewColumns (hdr : List String) : List String := hdr.map delayMapLabel

/-- The cells of row `r` lying under the columns of `nc` labelled `k`, in
order — pandas `df[k]` where `nc` is the column index of `df` (all matching
columns are selected when the label is duplicated). -/
def selCol : List String → List String → String → List String
  | [], _, _ => []
  | _ :: _, [], _ => []
  | c :: cs, v :: vs, k => if c == k then v :: selCol cs vs k else selCol cs vs k

/-- The occurrences of label `k` in the column index `nc` — the column labels
`df[[... k ...]]` contributes for `k`. -/
def colOcc (nc : List String) (k : String) : List String :=
  match nc with
  | [] => []
  | c :: cs => if c == k then c :: colOcc cs k else colOcc cs k

/-- The slice of the reconciled row contributed by canonical column `k`
(lines 65-69): if some source column was renamed to `k`, the cell(s) under
that label; otherwise the blank fill `df[k] = ""`. -/
def delayChunk (nc r : List String) (k : String) : List String :=
  if elemStr k nc then selCol nc r k else [""]

/-- Concatenation of the per-key slices over a key list. -/
def chunksConcat (nc r : List String) : List String → List String
  | [] => []
  | k :: ks => delayChunk nc r k ++ chunksConcat nc r ks

/-- `df = df[list(column_keywords.keys())]` applied to one body row (lines
65-69): the reconciled row, with blank fill for canonical columns no source
column mapped onto. -/
def delayReconcileRow (nc r : List String) : List String := chunksConcat nc r columnKeys

/-- The column labels contributed by canonical column `k` after blank fill
and selection. -/
def nameChunk (nc : List String) (k : String) : List String :=
  if elemStr k nc then colOcc nc k else [k]

/-- Concatenation of per-key label slices. -/
def namesConcat (nc : List String) : List String → List String
  | [] => []
  | k :: ks => nameChunk nc k ++ namesConcat nc ks

/-- The column labels of the reconciled table (lines 65-69). -/
def delayColNames (nc : List String) : List String := namesConcat nc columnKeys

/-- Column reconciliation of a whole body (header row `hdr`, body rows
`body`): lines 52-70. -/
def delayReconcileTable (hdr : List String) (body : List (List String)) :
    List (List String) :=
  body.map (delayReconcileRow (delayNewColumns hdr))

/-- `s.str.replace("(", "").str.replace(")", "")` (line 81): delete every
parenthesis character. -/
def stripParens (s : String) : String :=
  ⟨s.data.filter (fun c => !(c == '(') && !(c == ')'))⟩

/-- The numeric sort key of a reconciled row (line 81): "Order Days" is the
12th canonical column (index 11); strip parentheses and parse as a float.
`none` models the `ValueError` raised by `astype(float)`. -/
def sortKey (r : List String) : Option ℚ := pyFloat (stripParens (r.getD 11 ""))

/-- Sort key as a total function (used only after `keysOf` succeeded). -/
def keyOrZero (r : List String) : ℚ := (sortKey r).getD 0

/-- `astype(float)` over the whole column: any unparseable cell raises and
aborts the run (`none`). -/
def keysOf : List (List String) → Option (List ℚ)
  | [] => some []
  | r :: rs =>
    match sortKey r, keysOf rs with
    | some k, some ks => some (k :: ks)
    | _, _ => none

/-- Insertion of `x` into an ascending-by-key list, before the first element
whose key is ≥ the key of `x`. -/
def insertAsc (key : α → ℚ) (x : α) : List α → List α
  | [] => [x]
  | y :: ys => if key x ≤ key y then x :: y :: ys else y :: insertAsc key x ys

/-- One concrete executable stand-in for numpy's `argsort` kernel (an
insertion sort).  CAVEAT: the code calls `argsort` with the default
`kind='quicksort'`, whose order among EQUAL keys is implementation-defined
(the quicksort kernel is documented as not stable), so only the properties
of this model that are independent of tie order — which elements appear,
and the ascending order of their keys — reflect the program; no theorem in
this file relies on the tie order this model happens to produce. -/
def isortAsc (key : α → ℚ) (l : List α) : List α := l.foldr (insertAsc key) []

/-- `sort_values(by=..., ascending=False)` (line 82): pandas `nargsort`
reverses the array, argsorts ascending, and reverses the resulting order
again; the kernel argsort is modelled by `isortAsc` (tie-order caveat
there). -/
def pdSortDesc (key : α → ℚ) (l : List α) : List α := (isortAsc key l.reverse).reverse

/-- Lines 81-84 as one step on the body rows: compute the float sort keys
(aborting the run on any unparseable value) and sort descending. -/
def delaySortBody (rows : List (List String)) : Option (List (List String)) :=
  match keysOf rows with
  | none => none
  | some _ => some (pdSortDesc keyOrZero rows)

/-- `pd.to_datetime(col, errors='coerce').dt.strftime('%d-%m-%Y')` (lines
87-88).  The element parser and the formatter are pandas internals, taken
here as parameters `p` and `fmt`; `errors='coerce'` turns each parse failure
into NaT, which strftime renders as a null cell (`none`). -/
def coerceFmtDates (p : String → Option α) (fmt : α → String)
    (col : List String) : List (Option String) :=
  col.map fun c => (p c).map fmt

/-! ## The detector described by the spec (for comparison with the code)

Modelled from the spec's words, claim C1: "for each row counts the number of
canonical columns for which at least one cell of that row (lowercased and
trimmed) contains one of the column's keyword fragments as a substring;
it returns the index of the first row whose count meets or exceeds the
tool's threshold". -/

/-- Spec-described count: number of distinct canonical columns hit by some
cell of the row. -/
def specColumnHitCount (row : List String) : Nat :=
  (columnKeywords.map fun kc =>
    if row.any (fun x => kc.2.any (fun kw => pyIn kw (normCell x))) then 1 else 0).sum

/-- Spec-described detector over the deplay keyword map and threshold. -/
def specDetectorFirst (g : List (List String)) : Option Nat :=
  findFirstIdx (fun row => decide (delayThreshold ≤ specColumnHitCount row)) g

/-! ## factory-out.py -/

/-- `FIXED_COLUMNS` (factory-out.py lines 16-19). -/
def factoryFixedColumns : List String :=
  ["Trans Date", "Doc No", "Party Name", "Style No", "Karat", "Variant Name",
   "Net Wt", "Wastage Perc", "Pg Wt", "Pg Wastage Wt", "Line Remark"]

/-- `row_values` of `find_header_row` (line 40): the non-NaN cells,
stringified, stripped and lowercased. -/
def factoryRowVals (row : List (Option String)) : List String :=
  (row.filterMap id).map normCell

/-- `found_columns` (lines 43-48): the number of fixed columns whose
lowercased name is a substring of some cell of the row. -/
def factoryRowColCount (row : List (Option String)) : Nat :=
  (factoryFixedColumns.map fun c =>
    if (factoryRowVals row).any (fun v => pyIn (pyLower c) v) then 1 else 0).sum

/-- `found_columns >= len(FIXED_COLUMNS) * 0.6` (line 51): with 11 columns the
float threshold is 6.6, so an integer count qualifies iff `10 * count ≥ 66`,
i.e. iff `count ≥ 7`. -/
def factoryQualB (row : List (Option String)) : Bool :=
  decide (6 * factoryFixedColumns.length ≤ 10 * factoryRowColCount row)

/-- `find_header_row` (lines 36-54): first qualifying row index, defaulting
to 0 when the loop finds none. -/
def factoryFindHeader (g : List (List (Option String))) : Nat :=
  (findFirstIdx factoryQualB g).getD 0

/-- The three-way label match of `process_excel` (lines 176-178):
`fixed_col_lower in col_lower or col_lower in fixed_col_lower or
re.sub('[^a-z]','',fixed_col_lower) in re.sub('[^a-z]','',col_lower)`. -/
def matches3 (fixedc label : String) : Bool :=
  pyIn (pyLower fixedc) (pyLower label) || pyIn (pyLower label) (pyLower fixedc) ||
    pyIn (alphaOnly fixedc) (alphaOnly label)

/-- `column_mapping` + `df.rename` for one source label (lines 169-183): the
first fixed column the label matches, or the label itself. -/
def renameWith (fixed : List String) (label : String) : String :=
  match fixed.find? (fun f => matches3 f label) with
  | some f => f
  | none => label

/-- factory-out's renaming against its `FIXED_COLUMNS`. -/
def factoryRename (label : String) : String := renameWith factoryFixedColumns label

/-- `available_cols` (line 186): fixed columns other than "Karat" that are
present among the renamed source columns, in fixed order. -/
def factoryAvailable (hdr : List String) : List String :=
  factoryFixedColumns.filter fun c =>
    !(c == "Karat") && elemStr c (hdr.map factoryRename)

/-- Insert `v` right after the first occurrence of `pivot`
(`df.insert(df.columns.get_loc("Style No") + 1, "Karat", ...)`). -/
def insertAfter (v pivot : String) : List String → List String
  | [] => []
  | c :: cs => if c == pivot then c :: v :: cs else c :: insertAfter v pivot cs

/-- The output column list of `process_excel` (lines 185-196): the available
fixed columns, with "Karat" inserted after "Style No" when the latter is
present. -/
def factoryOutputColumns (hdr : List String) : List String :=
  let av := factoryAvailable hdr
  if elemStr "Style No" av then insertAfter "Karat" "Style No" av else av

/-- The source column index feeding canonical column `c` of the output: the
first source label renamed to `c`. -/
def factorySourceIdx (hdr : List String) (c : String) : Option Nat :=
  findFirstIdx (fun l => factoryRename l == c) hdr

/-- One cell of the written grand-total row (create_download_file lines
328-333): output position `j` receives the raw footer cell at the SAME
position `j`, or '' when the footer row is shorter. -/
def factoryFooterCell (footer : List String) (j : Nat) : String :=
  if j < footer.length then footer.getD j "" else ""

/-- The grand-total value written under canonical output column `c`: the
positional footer cell at the position of `c` among the output columns. -/
def factoryFooterUnder (hdr footer : List String) (c : String) : String :=
  match findFirstIdx (fun k => k == c) (factoryOutputColumns hdr) with
  | some j => factoryFooterCell footer j
  | none => ""

/-! ## extract_karat (factory-out.py lines 133-145) -/

/-- A Python cell value as seen by `extract_karat`: a string, a number, NaN,
or None. -/
inductive PyVal where
  | str (s : String)
  | num (q : ℚ)
  | nan
  | noneV
deriving DecidableEq

/-- Python regex `\w` (ASCII part, which covers the style codes). -/
def isWordChar (c : Char) : Bool := c.isAlphanum || c == '_'

/-- Case-insensitive prefix test (`re.IGNORECASE`). -/
def ciPre : List Char → List Char → Bool
  | [], _ => true
  | _ :: _, [] => false
  | a :: as, b :: bs => a.toLower == b.toLower && ciPre as bs

/-- The `\b` after the pattern: end of string or a non-word character. -/
def boundaryAfterOk : List Char → Bool
  | [] => true
  | c :: _ => !isWordChar c

/-- The `\b` before the pattern: start of string or a non-word previous
character (the pattern starts with a digit, a word character). -/
def boundaryBeforeOk : Option Char → Bool
  | none => true
  | some c => !isWordChar c

/-- Try `\b(18KT|22KT|24KT)\b` (case-insensitive) at the current position;
the matched group is returned uppercased (`match.group(1).upper()`). -/
def karatTryAt (prev : Option Char) (l : List Char) : Option String :=
  if boundaryBeforeOk prev && ciPre "18KT".data l && boundaryAfterOk (l.drop 4) then
    some "18KT"
  else if boundaryBeforeOk prev && ciPre "22KT".data l && boundaryAfterOk (l.drop 4) then
    some "22KT"
  else if boundaryBeforeOk prev && ciPre "24KT".data l && boundaryAfterOk (l.drop 4) then
    some "24KT"
  else none

/-- `re.search`: leftmost match position wins. -/
def karatScan (prev : Option Char) : List Char → Option String
  | [] => none
  | c :: rest =>
    match karatTryAt prev (c :: rest) with
    | some k => some k
    | none => karatScan (some c) rest

/-- Search the whole style-code string. -/
def karatSearch (s : String) : Option String := karatScan none s.data

/-- `extract_karat` (lines 133-145): non-string or missing input yields "",
otherwise the first `\b(18KT|22KT|24KT)\b` match, uppercased, or "". -/
def extract_karat : PyVal → String
  | .str s =>
    match karatSearch s with
    | some k => k
    | none => ""
  | _ => ""

/-! ## loss.py -/

/-- `required_columns` (loss.py lines 35-46). -/
def lossRequired : List String :=
  ["Wc Name", "Issue Quantity Pg", "Process Quantity Pg", "Unutilized Quantity Pg",
   "Unutilized Quantity Sample Pg", "Unutilized Quantity Scrap Pg",
   "Loss Quantity Pg", "Gain Pg", "FINAL LOSS", "LOSS %"]

/-- `required_columns[:-2]` (line 155) — the columns for which a source index
is looked up. -/
def lossMappedCols : List String := lossRequired.take 8

/-- Does a row contain a truthy cell equal (stripped, lowercased) to
'wc name' (lines 146-149)?  A `none` cell and the empty string are falsy in
Python's `if cell` filter. -/
def lossRowPred (row : List (Option String)) : Bool :=
  row.any fun c =>
    match c with
    | some s => !(s == "") && (normCell s == "wc name")
    | none => false

/-- The header search of loss.py `process_excel` (lines 144-151): the first
row with a 'Wc Name' cell, or the raised `Exception` when there is none —
header-not-found is a hard failure in this tool. -/
def lossHeaderOrError (data : List (List (Option String))) : Except String Nat :=
  match findFirstIdx lossRowPred data with
  | some i => Except.ok i
  | none => Except.error "Could not find header row with Wc Name"

/-- `col_index_map` (lines 154-161) for one canonical column: the first
nonempty header whose despaced lowercase form contains the despaced lowercase
column name; only the first eight required columns are mapped. -/
def lossColIndexMap (hdrs : List String) (c : String) : Option Nat :=
  if elemStr c lossMappedCols then
    findFirstIdx (fun h => !(h == "") && pyIn (despace (pyLower c)) (despace (pyLower h))) hdrs
  else none

/-- The value copied into the TOTAL (footer) row under column `c` (lines
183-188): `old_row[old_idx]` when `col_index_map` has an in-range index,
otherwise the cell is left empty. -/
def lossTotalCell (hdrs : List String) (row : List α) (c : String) : Option α :=
  match lossColIndexMap hdrs c with
  | some i => row.get? i
  | none => none

/-- The raw source value a BODY row reads for a non-formula column `c`
(lines 200-203), before numeric rounding: the same `col_index_map` lookup. -/
def lossBodyRaw (hdrs : List String) (row : List α) (c : String) : Option α :=
  match lossColIndexMap hdrs c with
  | some i => row.get? i
  | none => none

/-! ## lot-rejection.py -/

/-- `FIXED_COLUMNS` (lot-rejection.py lines 15-18). -/
def lotFixedColumns : List String :=
  ["Trans Date", "Order No", "Group No", "Style Name", "Karat",
   "Wt", "Operation Name", "Wc Name", "User Name", "Remark"]

/-- lot-rejection's renaming against its `FIXED_COLUMNS` (lines 67-81, the
same three-way match as factory-out). -/
def lotRename (label : String) : String := renameWith lotFixedColumns label

/-- `available_cols` (line 84): fixed columns present among the renamed
source columns. -/
def lotAvailable (hdr : List String) : List String :=
  lotFixedColumns.filter fun c => elemStr c (hdr.map lotRename)

/-- Source index feeding canonical column `c`: first source label renamed to
`c`. -/
def lotSourceIdx (hdr : List String) (c : String) : Option Nat :=
  findFirstIdx (fun l => lotRename l == c) hdr

/-- `df = df[available_cols]` applied to one body row (line 85). -/
def lotReconcileRow (hdr r : List String) : List String :=
  (lotAvailable hdr).map fun c =>
    match lotSourceIdx hdr c with
    | some j => r.getD j ""
    | none => ""

/-! ## Lemmas: first-hit searches -/

theorem findFirstIdxAux_eq_some (p : α → Bool) (d : α) :
    ∀ (l : List α) (i n : Nat), i < l.length →
      p (l.getD i d) = true → (∀ j, j < i → p (l.getD j d) = false) →
      findFirstIdxAux p n l = some (n + i) := by
  intro l
  induction l with
  | nil => intro i n hi _ _; simp at hi
  | cons x xs ih =>
    intro i n hi hp hmin
    cases i with
    | zero =>
      simp only [List.getD_cons_zero] at hp
      simp [findFirstIdxAux, hp]
    | succ i =>
      have hx : p x = false := by
        have h0 := hmin 0 (Nat.succ_pos i)
        simpa only [List.getD_cons_zero] using h0
      have h1 : findFirstIdxAux p (n + 1) xs = some ((n + 1) + i) :=
        ih i (n + 1) (by simpa using hi)
          (by simpa only [List.getD_cons_succ] using hp)
          (fun j hj => by
            simpa only [List.getD_cons_succ] using hmin (j + 1) (Nat.succ_lt_succ hj))
      have harith : n + (i + 1) = (n + 1) + i := by omega
      rw [harith]
      simpa [findFirstIdxAux, hx] using h1

theorem findFirstIdx_eq_some (p : α → Bool) (d : α) (l : List α) (i : Nat)
    (hi : i < l.length) (hp : p (l.getD i d) = true)
    (hmin : ∀ j, j < i → p (l.getD j d) = false) :
    findFirstIdx p l = some i := by
  have h := findFirstIdxAux_eq_some p d l i 0 hi hp hmin
  simpa [findFirstIdx] using h

theorem findFirstIdxAux_eq_none (p : α → Bool) :
    ∀ (l : List α) (n : Nat), (∀ x ∈ l, p x = false) →
      findFirstIdxAux p n l = none := by
  intro l
  induction l with
  | nil => intro n _; rfl
  | cons x xs ih =>
    intro n h
    have hx : p x = false := h x (by simp)
    simp only [findFirstIdxAux, hx, Bool.false_eq_true, if_false]
    exact ih (n + 1) (fun y hy => h y (by simp [hy]))

theorem findFirstIdxAux_bound (p : α → Bool) :
    ∀ (l : List α) (n m : Nat), findFirstIdxAux p n l = some m →
      n ≤ m ∧ m - n < l.length := by
  intro l
  induction l with
  | nil => intro n m h; simp [findFirstIdxAux] at h
  | cons x xs ih =>
    intro n m h
    cases hx : p x with
    | true =>
      simp only [findFirstIdxAux, hx, if_true, Option.some.injEq] at h
      subst h
      constructor
      · exact Nat.le_refl n
      · simp
    | false =>
      simp only [findFirstIdxAux, hx, Bool.false_eq_true, if_false] at h
      have hb := ih (n + 1) m h
      simp only [List.length_cons]
      omega

theorem findFirstIdx_lt (p : α → Bool) (l : List α) (i : Nat)
    (h : findFirstIdx p l = some i) : i < l.length := by
  have hb := findFirstIdxAux_bound p l 0 i h
  omega

/-! ## Lemmas: counting and selection (deplay reconciliation) -/

theorem elemStr_one_le_cnt (k : String) :
    ∀ l : List String, elemStr k l = true → 1 ≤ cnt k l := by
  intro l
  induction l with
  | nil => intro h; simp [elemStr] at h
  | cons c cs ih =>
    intro h
    cases hc : (c == k) with
    | true => simp [cnt, hc]
    | false =>
      have h2 : elemStr k cs = true := by
        simpa [elemStr, hc] using h
      have := ih h2
      simp [cnt, hc]
      omega

theorem cnt_zero_colOcc (k : String) :
    ∀ l : List String, cnt k l = 0 → colOcc l k = [] := by
  intro l
  induction l with
  | nil => intro _; rfl
  | cons c cs ih =>
    intro h
    cases hc : (c == k) with
    | true => simp [cnt, hc] at h
    | false =>
      have h2 : cnt k cs = 0 := by simpa [cnt, hc] using h
      simp [colOcc, hc, ih h2]

theorem cnt_one_colOcc (k : String) :
    ∀ l : List String, cnt k l = 1 → colOcc l k = [k] := by
  intro l
  induction l with
  | nil => intro h; simp [cnt] at h
  | cons c cs ih =>
    intro h
    cases hc : (c == k) with
    | true =>
      have hck : c = k := eq_of_beq hc
      have h2 : cnt k cs = 0 := by
        have := h
        simp [cnt, hc] at this
        omega
      simp [colOcc, hc, cnt_zero_colOcc k cs h2, hck]
    | false =>
      have h2 : cnt k cs = 1 := by simpa [cnt, hc] using h
      simp [colOcc, hc, ih h2]

theorem selCol_length (k : String) :
    ∀ (nc r : List String), r.length = nc.length →
      (selCol nc r k).length = cnt k nc := by
  intro nc
  induction nc with
  | nil => intro r _; simp [selCol, cnt]
  | cons c cs ih =>
    intro r hr
    cases r with
    | nil => simp at hr
    | cons v vs =>
      have hlen : vs.length = cs.length := by simpa using hr
      cases hc : (c == k) with
      | true =>
        simp [selCol, cnt, hc, ih vs hlen]
        omega
      | false => simp [selCol, cnt, hc, ih vs hlen]

theorem namesConcat_id (nc : List String) :
    ∀ ks : List String, (∀ k ∈ ks, cnt k nc ≤ 1) → namesConcat nc ks = ks := by
  intro ks
  induction ks with
  | nil => intro _; rfl
  | cons k ks ih =>
    intro h
    have hk : cnt k nc ≤ 1 := h k (by simp)
    have hchunk : nameChunk nc k = [k] := by
      unfold nameChunk
      cases he : elemStr k nc with
      | true =>
        have h1 := elemStr_one_le_cnt k nc he
        have : cnt k nc = 1 := by omega
        simp [cnt_one_colOcc k nc this]
      | false => simp
    simp only [namesConcat, hchunk]
    rw [ih (fun x hx => h x (by simp [hx]))]
    rfl

theorem chunksConcat_length (nc r : List String) (hlen : r.length = nc.length) :
    ∀ ks : List String, (∀ k ∈ ks, cnt k nc ≤ 1) →
      (chunksConcat nc r ks).length = ks.length := by
  intro ks
  induction ks with
  | nil => intro _; rfl
  | cons k ks ih =>
    intro h
    have hk : cnt k nc ≤ 1 := h k (by simp)
    have hchunk : (delayChunk nc r k).length = 1 := by
      unfold delayChunk
      cases he : elemStr k nc with
      | true =>
        have h1 := elemStr_one_le_cnt k nc he
        have hone : cnt k nc = 1 := by omega
        simp [selCol_length k nc r hlen, hone]
      | false => simp
    simp only [chunksConcat, List.length_append, hchunk,
      ih (fun x hx => h x (by simp [hx])), List.length_cons]
    omega

/-! ## Lemmas: keysOf -/

theorem keysOf_eq_none :
    ∀ rows : List (List String), keysOf rows = none ↔ ∃ r ∈ rows, sortKey r = none := by
  intro rows
  induction rows with
  | nil => simp [keysOf]
  | cons r rs ih =>
    cases hk : sortKey r with
    | none => simp [keysOf, hk]
    | some k =>
      cases hks : keysOf rs with
      | none =>
        simp only [keysOf, hk, hks]
        constructor
        · intro _
          obtain ⟨x, hx, hxk⟩ := ih.mp hks
          exact ⟨x, by simp [hx], hxk⟩
        · intro _; trivial
      | some ks =>
        simp only [keysOf, hk, hks]
        constructor
        · intro h; simp at h
        · intro h
          obtain ⟨x, hx, hxk⟩ := h
          rcases List.mem_cons.mp hx with hx | hx
          · subst hx; rw [hk] at hxk; cases hxk
          · have : keysOf rs = none := ih.mpr ⟨x, hx, hxk⟩
            rw [hks] at this; cases this

/-! ## Lemmas: karat extraction -/

theorem karatTryAt_cases (prev : Option Char) (l : List Char) :
    karatTryAt prev l = none ∨ karatTryAt prev l = some "18KT" ∨
      karatTryAt prev l = some "22KT" ∨ karatTryAt prev l = some "24KT" := by
  unfold karatTryAt
  split_ifs <;> simp

theorem karatScan_cases :
    ∀ (l : List Char) (prev : Option Char),
      karatScan prev l = none ∨ karatScan prev l = some "18KT" ∨
        karatScan prev l = some "22KT" ∨ karatScan prev l = some "24KT" := by
  intro l
  induction l with
  | nil => intro prev; left; rfl
  | cons c rest ih =>
    intro prev
    rcases karatTryAt_cases prev (c :: rest) with h | h | h | h
    · simpa [karatScan, h] using ih (some c)
    · right; left; simp [karatScan, h]
    · right; right; left; simp [karatScan, h]
    · right; right; right; simp [karatScan, h]

/-! ## Helper theorems for the round-trip claim -/

theorem delayReconcileRow_id :
    ∀ r : List String, r.length = 12 → delayReconcileRow columnKeys r = r := by
  intro r hr
  rcases r with _ | ⟨a0, r⟩
  · simp only [List.length_nil] at hr
    omega
  rcases r with _ | ⟨a1, r⟩
  · simp only [List.length_cons, List.length_nil] at hr
    omega
  rcases r with _ | ⟨a2, r⟩
  · simp only [List.length_cons, List.length_nil] at hr
    omega
  rcases r with _ | ⟨a3, r⟩
  · simp only [List.length_cons, List.length_nil] at hr
    omega
  rcases r with _ | ⟨a4, r⟩
  · simp only [List.length_cons, List.length_nil] at hr
    omega
  rcases r with _ | ⟨a5, r⟩
  · simp only [List.length_cons, List.length_nil] at hr
    omega
  rcases r with _ | ⟨a6, r⟩
  · simp only [List.length_cons, List.length_nil] at hr
    omega
  rcases r with _ | ⟨a7, r⟩
  · simp only [List.length_cons, List.length_nil] at hr
    omega
  rcases r with _ | ⟨a8, r⟩
  · simp only [List.length_cons, List.length_nil] at hr
    omega
  rcases r with _ | ⟨a9, r⟩
  · simp only [List.length_cons, List.length_nil] at hr
    omega
  rcases r with _ | ⟨a10, r⟩
  · simp only [List.length_cons, List.length_nil] at hr
    omega
  rcases r with _ | ⟨a11, r⟩
  · simp only [List.length_cons, List.length_nil] at hr
    omega
  rcases r with _ | ⟨x, r⟩
  · rfl
  · simp only [List.length_cons] at hr
    omega

theorem lotReconcileRow_id :
    ∀ r : List String, r.length = 10 → lotReconcileRow lotFixedColumns r = r := by
  intro r hr
  rcases r with _ | ⟨a0, r⟩
  · simp only [List.length_nil] at hr
    omega
  rcases r with _ | ⟨a1, r⟩
  · simp only [List.length_cons, List.length_nil] at hr
    omega
  rcases r with _ | ⟨a2, r⟩
  · simp only [List.length_cons, List.length_nil] at hr
    omega
  rcases r with _ | ⟨a3, r⟩
  · simp only [List.length_cons, List.length_nil] at hr
    omega
  rcases r with _ | ⟨a4, r⟩
  · simp only [List.length_cons, List.length_nil] at hr
    omega
  rcases r with _ | ⟨a5, r⟩
  · simp only [List.length_cons, List.length_nil] at hr
    omega
  rcases r with _ | ⟨a6, r⟩
  · simp only [List.length_cons, List.length_nil] at hr
    omega
  rcases r with _ | ⟨a7, r⟩
  · simp only [List.length_cons, List.length_nil] at hr
    omega
  rcases r with _ | ⟨a8, r⟩
  · simp only [List.length_cons, List.length_nil] at hr
    omega
  rcases r with _ | ⟨a9, r⟩
  · simp only [List.length_cons, List.length_nil] at hr
    omega
  rcases r with _ | ⟨x, r⟩
  · rfl
  · simp only [List.length_cons] at hr
    omega

theorem delayReconcileMap_id :
    ∀ body : List (List String), (∀ r ∈ body, r.length = 12) →
      body.map (delayReconcileRow columnKeys) = body := by
  intro body
  induction body with
  | nil => intro _; rfl
  | cons r rs ih =>
    intro hb
    simp only [List.map_cons]
    rw [delayReconcileRow_id r (hb r (by simp)), ih (fun x hx => hb x (by simp [hx]))]

/-! ## Claim theorems -/

/-- Claim C1, counterexample.  A grid whose row 0 consists of six cells all
reading "order no" and whose row 1 is a genuine header matching six distinct
canonical columns: the claim's detector (counting distinct canonical columns,
`specDetectorFirst`) first qualifies at row 1, but deplay-order-report's
detector counts (cell, column) pairs, so row 0 already scores 6 ≥ 6 and the
code returns 0, not 1. -/
theorem c1_counterexample :
    delayHeaderIndex
        [["order no", "order no", "order no", "order no", "order no", "order no"],
         ["Order No", "Variant Name", "Group No", "Batch No", "Dept Name", "Jobworker"]] = 0 ∧
    specDetectorFirst
        [["order no", "order no", "order no", "order no", "order no", "order no"],
         ["Order No", "Variant Name", "Group No", "Batch No", "Dept Name", "Jobworker"]] =
      some 1 := by
  constructor
  · rfl
  · rfl

/-- Claim C1, amended: each detector scans rows from index 0 and returns the
lowest index meeting its own threshold; factory-out counts distinct canonical
columns as the claim states (threshold 60 percent of the schema), while
deplay-order-report counts matching (cell, canonical-column) pairs against
threshold `len(column_keywords) // 2`. -/
theorem c1_amended :
    (∀ (g : List (List String)) (i : Nat), i < g.length →
        delayQualB (g.getD i []) = true →
        (∀ j, j < i → delayQualB (g.getD j []) = false) →
        delayHeaderIndex g = i) ∧
    (∀ (g : List (List (Option String))) (i : Nat), i < g.length →
        factoryQualB (g.getD i []) = true →
        (∀ j, j < i → factoryQualB (g.getD j []) = false) →
        factoryFindHeader g = i) := by
  constructor
  · intro g i hi hp hmin
    unfold delayHeaderIndex delayHeaderOpt
    rw [findFirstIdx_eq_some delayQualB [] g i hi hp hmin]
    rfl
  · intro g i hi hp hmin
    unfold factoryFindHeader
    rw [findFirstIdx_eq_some factoryQualB [] g i hi hp hmin]
    rfl

/-- Witness for `c1_amended` at a concrete one-row grid whose single row
scores 7 pairs. -/
theorem c1_witness :
    delayQualB
        (([["Order No", "Variant Name", "Group No", "Batch No", "Dept Name",
            "Jobworker", "Req Purity"]] : List (List String)).getD 0 []) = true ∧
    delayHeaderIndex
        [["Order No", "Variant Name", "Group No", "Batch No", "Dept Name",
          "Jobworker", "Req Purity"]] = 0 :=
  ⟨by decide,
   c1_amended.1
     [["Order No", "Variant Name", "Group No", "Batch No", "Dept Name",
       "Jobworker", "Req Purity"]] 0 (by decide) (by decide)
     (fun j hj => absurd hj (Nat.not_lt_zero j))⟩

/-- Claim C2, counterexample.  factory-out keeps only the canonical columns
that matched a source column (`available_cols`, line 186): with source header
["Style No", "Net Wt"], the output columns are just ["Style No", "Karat",
"Net Wt"], and the canonical column "Line Remark" is absent instead of being
blank-filled. -/
theorem c2_counterexample :
    factoryOutputColumns ["Style No", "Net Wt"] = ["Style No", "Karat", "Net Wt"] ∧
    elemStr "Line Remark" factoryFixedColumns = true ∧
    elemStr "Line Remark" (factoryOutputColumns ["Style No", "Net Wt"]) = false := by
  refine ⟨rfl, rfl, rfl⟩

/-- Claim C2, amended: in deplay-order-report the property holds — whenever
each canonical column is matched by at most one source header label, the
reconciled table has exactly the canonical columns in the schema's fixed
order, each reconciled row has exactly one cell per canonical column, and a
canonical column with no matching source column contributes the blank "" in
every row.  (factory-out instead drops unmatched canonical columns, see the
counterexample.) -/
theorem c2_amended (nc r : List String)
    (hcount : ∀ k ∈ columnKeys, cnt k nc ≤ 1) (hlen : r.length = nc.length) :
    delayColNames nc = columnKeys ∧
    (delayReconcileRow nc r).length = columnKeys.length ∧
    (∀ k ∈ columnKeys, elemStr k nc = false → delayChunk nc r k = [""]) := by
  refine ⟨?_, ?_, ?_⟩
  · exact namesConcat_id nc columnKeys hcount
  · exact chunksConcat_length nc r hlen columnKeys hcount
  · intro k _ hk
    simp [delayChunk, hk]

/-- Witness for `c2_amended`: a source header mapping only "Order No", with a
two-cell row. -/
theorem c2_witness :
    (∀ k ∈ columnKeys, cnt k ["Order No", "xyz"] ≤ 1) ∧
    (delayColNames ["Order No", "xyz"] = columnKeys ∧
      (delayReconcileRow ["Order No", "xyz"] ["a", "b"]).length = columnKeys.length ∧
      (∀ k ∈ columnKeys, elemStr k ["Order No", "xyz"] = false →
        delayChunk ["Order No", "xyz"] ["a", "b"] k = [""])) :=
  ⟨by decide, c2_amended ["Order No", "xyz"] ["a", "b"] (by decide) (by decide)⟩

/-- Claim C3, counterexample.  loss.py does NOT fall back to row 0: on a grid
with no 'Wc Name' cell, `process_excel` raises (modelled as `Except.error`),
so header-not-found IS a hard failure in that tool, contradicting the claim
that every tool degrades to row 0 with a warning. -/
theorem c3_counterexample :
    lossHeaderOrError [[some "Monthly Loss Report", none], [some "x", some "y"]] =
      Except.error "Could not find header row with Wc Name" := rfl

/-- Claim C3, amended: when no row qualifies, deplay-order-report falls back
to row 0 (with a visible warning) and factory-out/lot-rejection return 0
(silently); loss.py instead raises an exception, and scrap-dc-report stops
with an error — header-not-found is a hard failure in loss.py. -/
theorem c3_amended :
    (∀ g : List (List String), (∀ r ∈ g, delayQualB r = false) →
        delayHeaderIndex g = 0) ∧
    (∀ g : List (List (Option String)), (∀ r ∈ g, factoryQualB r = false) →
        factoryFindHeader g = 0) ∧
    (∀ g : List (List (Option String)), (∀ r ∈ g, lossRowPred r = false) →
        lossHeaderOrError g = Except.error "Could not find header row with Wc Name") := by
  refine ⟨?_, ?_, ?_⟩
  · intro g h
    unfold delayHeaderIndex delayHeaderOpt findFirstIdx
    rw [findFirstIdxAux_eq_none delayQualB g 0 h]
    rfl
  · intro g h
    unfold factoryFindHeader findFirstIdx
    rw [findFirstIdxAux_eq_none factoryQualB g 0 h]
    rfl
  · intro g h
    unfold lossHeaderOrError findFirstIdx
    rw [findFirstIdxAux_eq_none lossRowPred g 0 h]

/-- Witness for `c3_amended` at a one-row grid with no qualifying row. -/
theorem c3_witness :
    (∀ r ∈ ([[some "hello"]] : List (List (Option String))), factoryQualB r = false) ∧
    factoryFindHeader [[some "hello"]] = 0 :=
  ⟨by decide, c3_amended.2.1 [[some "hello"]] (by decide)⟩

/-- Claim C4, counterexample.  In factory-out, with source header
["Style No", "Net Wt"] the body's "Net Wt" values are read from source index
1, but the output columns are ["Style No", "Karat", "Net Wt"] and
`create_download_file` copies the grand-total row POSITIONALLY, so the
footer cell written under "Net Wt" is the cell at output position 2 —
'' here, since the raw footer ["Grand Total", "99"] has length 2 — and not
the "99" sitting at the body's source index 1.  The footer is NOT remapped
with the body's source-column-index mapping. -/
theorem c4_counterexample :
    factorySourceIdx ["Style No", "Net Wt"] "Net Wt" = some 1 ∧
    (["Grand Total", "99"] : List String).getD 1 "" = "99" ∧
    factoryFooterUnder ["Style No", "Net Wt"] ["Grand Total", "99"] "Net Wt" = "" ∧
    factoryFooterUnder ["Style No", "Net Wt"] ["Grand Total", "99"] "Net Wt" ≠
      (["Grand Total", "99"] : List String).getD 1 "" := by
  refine ⟨rfl, rfl, rfl, by decide⟩

/-- Claim C4, amended: loss.py does remap the TOTAL (footer) row through the
same `col_index_map` the body rows use, so for every header list, row and
canonical column the footer reads exactly the source cell the body reads;
factory-out instead writes the footer cell sitting at the output column's
POSITION, with no remapping. -/
theorem c4_amended :
    (∀ (α : Type) (hdrs : List String) (row : List α) (c : String),
        lossTotalCell hdrs row c = lossBodyRaw hdrs row c) ∧
    (∀ (hdr footer : List String) (c : String) (j : Nat),
        findFirstIdx (fun k => k == c) (factoryOutputColumns hdr) = some j →
        factoryFooterUnder hdr footer c = factoryFooterCell footer j) := by
  constructor
  · intro α hdrs row c
    rfl
  · intro hdr footer c j h
    unfold factoryFooterUnder
    rw [h]

/-- Witness for `c4_amended` at the concrete factory-out header of the
counterexample: "Net Wt" sits at output position 2. -/
theorem c4_witness :
    findFirstIdx (fun k => k == "Net Wt") (factoryOutputColumns ["Style No", "Net Wt"]) =
      some 2 ∧
    factoryFooterUnder ["Style No", "Net Wt"] ["Grand Total", "99"] "Net Wt" =
      factoryFooterCell ["Grand Total", "99"] 2 :=
  ⟨by decide, c4_amended.2 ["Style No", "Net Wt"] ["Grand Total", "99"] "Net Wt" 2 (by decide)⟩

/-- Claim C5, counterexample.  A numeric parse failure is NOT cell-local in
deplay-order-report: the sort-key computation `astype(float)` (line 81)
raises on the unparseable "abc" cell, aborting the whole sorting step (and
with it the run) even though the other row's "10.00" parses fine — the value
is not coerced to blank and processing does not continue. -/
theorem c5_counterexample :
    sortKey ["", "", "", "", "", "", "", "", "", "", "", "10.00"] = some 10 ∧
    delaySortBody
        [["", "", "", "", "", "", "", "", "", "", "", "10.00"],
         ["", "", "", "", "", "", "", "", "", "", "", "abc"]] = none := by
  refine ⟨by decide, rfl⟩

/-- Claim C5, amended: date normalisation (`pd.to_datetime(...,
errors='coerce')`, lines 87-88) is total and cell-local — the output column
always has the input's length and each output cell is computed from its own
input cell alone, with parse failures coerced to a null cell — but the
numeric sort-key parse (`astype(float)`, line 81) fails for the whole column
exactly when ANY cell's stripped value is unparseable, aborting the run
rather than blanking the one cell. -/
theorem c5_amended :
    (∀ (α : Type) (p : String → Option α) (fmt : α → String) (col : List String),
        (coerceFmtDates p fmt col).length = col.length) ∧
    (∀ (α : Type) (p : String → Option α) (fmt : α → String) (c : String)
        (col : List String),
        coerceFmtDates p fmt (c :: col) = ((p c).map fmt) :: coerceFmtDates p fmt col) ∧
    (∀ rows : List (List String), keysOf rows = none ↔ ∃ r ∈ rows, sortKey r = none) := by
  refine ⟨?_, ?_, keysOf_eq_none⟩
  · intro α p fmt col
    simp [coerceFmtDates]
  · intro α p fmt c col
    rfl

/-- Claim C7: round-trip.  For deplay-order-report, a grid whose header row
carries exactly the canonical labels in schema order reconciles every body
row to itself (content and order preserved); likewise lot-rejection's
`available_cols` selection is the identity on rows when the header equals its
fixed schema. -/
theorem c7_roundtrip :
    (∀ body : List (List String), (∀ r ∈ body, r.length = 12) →
        delayReconcileTable columnKeys body = body) ∧
    (∀ r : List String, r.length = 10 → lotReconcileRow lotFixedColumns r = r) := by
  constructor
  · intro body hb
    unfold delayReconcileTable
    rw [show delayNewColumns columnKeys = columnKeys from by decide]
    exact delayReconcileMap_id body hb
  · exact lotReconcileRow_id

/-- Witness for `c7_roundtrip` at a concrete one-row body. -/
theorem c7_witness :
    (∀ r ∈ ([["a", "b", "c", "d", "e", "f", "g", "h", "i", "j", "k", "l"]] :
        List (List String)), r.length = 12) ∧
    delayReconcileTable columnKeys
        [["a", "b", "c", "d", "e", "f", "g", "h", "i", "j", "k", "l"]] =
      [["a", "b", "c", "d", "e", "f", "g", "h", "i", "j", "k", "l"]] :=
  ⟨by decide,
   c7_roundtrip.1 [["a", "b", "c", "d", "e", "f", "g", "h", "i", "j", "k", "l"]]
     (by decide)⟩

/-- Claim C8, counterexample.  On a RawGrid with zero rows the detector's
fallback 0 is returned, but 0 is NOT a valid index of an existing row —
the claim's "including one with zero rows" is false. -/
theorem c8_counterexample :
    factoryFindHeader ([] : List (List (Option String))) = 0 ∧
    ¬ (0 < ([] : List (List (Option String))).length) := by
  refine ⟨rfl, by decide⟩

/-- Claim C8, amended: on every NONEMPTY RawGrid the header index returned by
deplay-order-report and factory-out (found or fallback 0) is a valid index of
an existing row; on the empty grid both return the fallback 0, which indexes
no row. -/
theorem c8_amended :
    (∀ g : List (List String), g ≠ [] → delayHeaderIndex g < g.length) ∧
    (∀ g : List (List (Option String)), g ≠ [] → factoryFindHeader g < g.length) := by
  constructor
  · intro g hg
    unfold delayHeaderIndex delayHeaderOpt
    cases h : findFirstIdx delayQualB g with
    | none =>
      simp only [Option.getD_none]
      cases g with
      | nil => exact absurd rfl hg
      | cons r rs => simp
    | some i =>
      simp only [Option.getD_some]
      exact findFirstIdx_lt delayQualB g i h
  · intro g hg
    unfold factoryFindHeader
    cases h : findFirstIdx factoryQualB g with
    | none =>
      simp only [Option.getD_none]
      cases g with
      | nil => exact absurd rfl hg
      | cons r rs => simp
    | some i =>
      simp only [Option.getD_some]
      exact findFirstIdx_lt factoryQualB g i h

/-- Witness for `c8_amended` at a concrete one-row grid. -/
theorem c8_witness :
    (([[some "x"]] : List (List (Option String))) ≠ []) ∧
    factoryFindHeader [[some "x"]] < ([[some "x"]] : List (List (Option String))).length :=
  ⟨by decide, c8_amended.2 [[some "x"]] (by decide)⟩

/-- Claim C9: `extract_karat` returns "22KT" on "ABC-22KT-001" and "" on
"ABC-XYZ", exactly as the spec's Example 3 states. -/
theorem c9_karat_examples :
    extract_karat (PyVal.str "ABC-22KT-001") = "22KT" ∧
    extract_karat (PyVal.str "ABC-XYZ") = "" := by
  refine ⟨rfl, rfl⟩

/-- Claim C10: `extract_karat` is total and always returns one of exactly
"", "18KT", "22KT", "24KT"; every non-string or missing input (number, NaN,
None) yields "", and a lowercase occurrence such as "abc-22kt-001" is
normalised to uppercase "22KT". -/
theorem c10_karat_total_range :
    (∀ v : PyVal, extract_karat v = "" ∨ extract_karat v = "18KT" ∨
        extract_karat v = "22KT" ∨ extract_karat v = "24KT") ∧
    (∀ q : ℚ, extract_karat (PyVal.num q) = "") ∧
    extract_karat PyVal.nan = "" ∧
    extract_karat PyVal.noneV = "" ∧
    extract_karat (PyVal.str "abc-22kt-001") = "22KT" := by
  refine ⟨?_, fun q => rfl, rfl, rfl, rfl⟩
  intro v
  cases v with
  | str s =>
    rcases karatScan_cases s.data none with h | h | h | h
    · left; simp [extract_karat, karatSearch, h]
    · right; left; simp [extract_karat, karatSearch, h]
    · right; right; left; simp [extract_karat, karatSearch, h]
    · right; right; right; simp [extract_karat, karatSearch, h]
  | num q => left; rfl
  | nan => left; rfl
  | noneV => left; rfl
